import Mathlib

/-!
Verification of the RenderingFarm job-lifecycle engine.

Shallow embedding of the Python sources (`jobs.py`, `worker.py`, `app.py`,
`turbo_settings.py`, `backend/utils.py`, `backend/context.py`) into Lean:
pure functions become Lean functions, filesystem/process effects become
explicit parameters and returned action descriptions, JSON metadata becomes
a record of `Option`-typed fields (a missing key and a JSON `null` are both
`none`), Python floats are modelled as rationals, and Python truthiness is
made explicit (`pyOr`, `strFalsy`, `intFalsy`).
-/

namespace RF

/-! ## Python-style helpers (truthiness, clamping) -/

/-- Python `a or b` for an optional string: `None` and `""` are falsy. -/
def pyOr (a : Option String) (b : String) : String :=
  match a with
  | none => b
  | some s => if s = "" then b else s

/-- Python `a or b` for an optional integer: `None` and `0` are falsy. -/
def pyOrInt (a : Option Int) (b : Int) : Int :=
  match a with
  | none => b
  | some n => if n = 0 then b else n

/-- Python truthiness test for an optional string (`None`/`""` falsy). -/
def strFalsy (a : Option String) : Bool :=
  match a with
  | none => true
  | some s => s = ""

/-- Python truthiness test for an optional integer (`None`/`0` falsy). -/
def intFalsy (a : Option Int) : Bool :=
  match a with
  | none => true
  | some n => n = 0

/-! ## Path model and `safe_job_dir` (`jobs.py` lines 36-62)

A filesystem path is its list of components below the root.  `resolve()`
is modelled as lexical normalisation (drop `.`, let `..` pop one
component), which matches `Path.resolve` on symlink-free trees. -/

/-- One step of lexical path normalisation. -/
def resolveStep (acc : List String) (comp : String) : List String :=
  if comp = "" ∨ comp = "." then acc
  else if comp = ".." then acc.dropLast
  else acc ++ [comp]

/-- Lexical normalisation of a component list, as `Path.resolve` does on a
symlink-free filesystem. -/
def resolveComponents (parts : List String) : List String :=
  parts.foldl resolveStep []

/-- `jobs.is_valid_job_id`: the id matches `^[A-Za-z0-9_-]+$`. -/
def is_valid_job_id (s : String) : Bool :=
  s ≠ "" && s.data.all (fun c => c.isAlphanum || c = '_' || c = '-')

/-- `jobs.ensure_within`: `target.resolve().relative_to(base_dir.resolve())`
succeeds exactly when `base` is a prefix of the (already resolved) target. -/
def ensure_within (base target : List String) : Bool :=
  base.isPrefixOf target

/-- Split a character list at `/` separators, as `Path` does when a raw
string with slashes is joined onto a base path. -/
def splitSlashAux : List Char → List Char → List String
  | [], acc => [String.mk acc.reverse]
  | c :: rest, acc =>
      if c = '/' then String.mk acc.reverse :: splitSlashAux rest []
      else splitSlashAux rest (c :: acc)

/-- Components contributed by a raw name joined onto a path. -/
def splitSlash (s : String) : List String :=
  splitSlashAux s.data []

/-- `jobs.safe_job_dir`.  `base / job_id` may introduce new components if
the id contains `/`; the join is modelled by splitting on `/` and
normalising.  `base` is assumed already resolved. -/
def safe_job_dir (base : List String) (jobId : String) : Option (List String) :=
  if ¬ is_valid_job_id jobId then none
  else
    let path := resolveComponents (base ++ splitSlash jobId)
    if ensure_within base path then some path else none

/-! ## Progress parser (`worker.py` lines 16-54)

`re.search` over a line is modelled as trying a pattern matcher at every
suffix position, left to right; each matcher mirrors one regular
expression of `parse_blender_output`. -/

/-- `\s` of the `re` module (ASCII whitespace class). -/
def isWS (c : Char) : Bool :=
  c = ' ' || c = '\t' || c = '\n' || c = '\r' || c = '\x0b' || c = '\x0c'

/-- Strip leading and trailing whitespace (`str.strip()`). -/
def trimChars (cs : List Char) : List Char :=
  ((cs.dropWhile isWS).reverse.dropWhile isWS).reverse

/-- `str.strip()` (kernel-reducible, ASCII whitespace). -/
def strTrim (s : String) : String := String.mk (trimChars s.data)

/-- `str.upper()` (kernel-reducible, ASCII). -/
def strUpper (s : String) : String := String.mk (s.data.map Char.toUpper)

/-- `str.lower()` (kernel-reducible, ASCII). -/
def strLower (s : String) : String := String.mk (s.data.map Char.toLower)

/-- Numeric value of a digit run (`int` applied to a `\d+` capture). -/
def digitsToNat (ds : List Char) : Nat :=
  ds.foldl (fun acc c => acc * 10 + (c.toNat - 48)) 0

/-- Greedy `\d+`: at least one digit, maximal run. -/
def readNat (cs : List Char) : Option (Nat × List Char) :=
  let ds := cs.takeWhile Char.isDigit
  if ds.isEmpty then none else some (digitsToNat ds, cs.drop ds.length)

/-- Match a literal, returning the rest of the input. -/
def matchLit (lit : List Char) (cs : List Char) : Option (List Char) :=
  if lit.isPrefixOf cs then some (cs.drop lit.length) else none

/-- Match a literal case-insensitively (`re.IGNORECASE`); `lit` is given in
lower case. -/
def matchLitCI (lit : List Char) (cs : List Char) : Option (List Char) :=
  if (cs.take lit.length).map Char.toLower = lit then some (cs.drop lit.length)
  else none

/-- `Fra:\s*(\d+)` anchored at the current position. -/
def matchFraAt (cs : List Char) : Option Nat := do
  let r1 ← matchLit "Fra:".data cs
  let (n, _) ← readNat (r1.dropWhile isWS)
  pure n

/-- `Sample\s+(\d+)/(\d+)` anchored at the current position. -/
def matchSampleAt (cs : List Char) : Option (Nat × Nat) := do
  let r1 ← matchLit "Sample".data cs
  let ws := r1.takeWhile isWS
  if ws.isEmpty then none
  else do
    let (c, r2) ← readNat (r1.drop ws.length)
    let r3 ← matchLit ['/'] r2
    let (t, _) ← readNat r3
    pure (c, t)

/-- `(\d+)\s*/\s*(\d+)` anchored at the current position (shared tail of
the three tile patterns). -/
def matchSlashPairAt (cs : List Char) : Option (Nat × Nat) := do
  let (c, r1) ← readNat cs
  let r2 ← matchLit ['/'] (r1.dropWhile isWS)
  let (t, _) ← readNat (r2.dropWhile isWS)
  pure (c, t)

/-- `\[TILES\]\s*(\d+)\s*/\s*(\d+)` anchored at the current position. -/
def matchTiles1At (cs : List Char) : Option (Nat × Nat) := do
  let r1 ← matchLit "[TILES]".data cs
  matchSlashPairAt (r1.dropWhile isWS)

/-- `Rendered\s+(\d+)\s*/\s*(\d+)\s*Tiles` (case-insensitive), anchored. -/
def matchTiles2At (cs : List Char) : Option (Nat × Nat) := do
  let r1 ← matchLitCI "rendered".data cs
  let ws := r1.takeWhile isWS
  if ws.isEmpty then none
  else do
    let (c, r2) ← readNat (r1.drop ws.length)
    let r3 ← matchLit ['/'] (r2.dropWhile isWS)
    let (t, r4) ← readNat (r3.dropWhile isWS)
    let _ ← matchLitCI "tiles".data (r4.dropWhile isWS)
    pure (c, t)

/-- `Tile\s+(\d+)\s*/\s*(\d+)` (case-insensitive), anchored. -/
def matchTiles3At (cs : List Char) : Option (Nat × Nat) := do
  let r1 ← matchLitCI "tile".data cs
  let ws := r1.takeWhile isWS
  if ws.isEmpty then none
  else do
    let (c, r2) ← readNat (r1.drop ws.length)
    let r3 ← matchLit ['/'] (r2.dropWhile isWS)
    let (t, _) ← readNat (r3.dropWhile isWS)
    pure (c, t)

/-- `Remaining:\s*([0-9:.]+)` anchored at the current position. -/
def matchRemainingAt (cs : List Char) : Option String := do
  let r1 ← matchLit "Remaining:".data cs
  let body := (r1.dropWhile isWS).takeWhile (fun c => c.isDigit || c = ':' || c = '.')
  if body.isEmpty then none else pure (String.mk body)

/-- `re.search`: try the anchored matcher at each position, left to right. -/
def searchAux (m : List Char → Option α) : List Char → Option α
  | [] => m []
  | c :: rest => (m (c :: rest)).orElse (fun _ => searchAux m rest)

def searchFra (cs : List Char) : Option Nat := searchAux matchFraAt cs

def searchSample (cs : List Char) : Option (Nat × Nat) := searchAux matchSampleAt cs

/-- The tile patterns are tried in the order of `parse_blender_output`. -/
def searchTiles (cs : List Char) : Option (Nat × Nat) :=
  (searchAux matchTiles1At cs).orElse fun _ =>
    (searchAux matchTiles2At cs).orElse fun _ => searchAux matchTiles3At cs

def searchRemainingPat (cs : List Char) : Option String :=
  searchAux matchRemainingAt cs

/-- The partial progress update produced for one output line. -/
structure ProgressPayload where
  frame : Option Nat := none
  sample_current : Option Nat := none
  sample_total : Option Nat := none
  progress : Option Nat := none
  message : Option String := none
  tile_current : Option Nat := none
  tile_total : Option Nat := none
  remaining : Option String := none
deriving DecidableEq, Repr

/-- `worker.parse_blender_output`. -/
def parse_blender_output (line : String) : ProgressPayload :=
  let cs := line.data
  let fra := searchFra cs
  let p0 : ProgressPayload := { frame := fra }
  let p1 :=
    match searchSample cs with
    | some (c, t) =>
        let t' := max t 1
        let prog := min ((c * 100) / t') 100
        let frameLabel :=
          match fra with
          | some f => "Frame " ++ toString f ++ " | "
          | none => ""
        { p0 with
            sample_current := some c
            sample_total := some t'
            progress := some prog
            message := some (frameLabel ++ "Sample " ++ toString c ++ "/" ++ toString t') }
    | none =>
        match fra with
        | some f => { p0 with message := some ("Rendering Frame " ++ toString f) }
        | none => p0
  let p2 :=
    match searchTiles cs with
    | some (c, t) => { p1 with tile_current := some c, tile_total := some (max t 1) }
    | none => p1
  match searchRemainingPat cs with
  | some r => { p2 with remaining := some r }
  | none => p2

/-! ## Turbo render settings (`backend/utils.py`, `turbo_settings.py`)

JSON values are modelled by `Jval`; Python floats by rationals.  A record
field of type `Option Jval` is `none` when the key is absent. -/

inductive Jval where
  | null
  | bool (b : Bool)
  | int (n : Int)
  | num (q : Rat)
  | str (s : String)
deriving DecidableEq, Repr

/-- Python `int(str)`: optional surrounding whitespace, optional sign,
decimal digits. -/
def parseIntStr (s : String) : Option Int :=
  let t := trimChars s.data
  let p : Int × List Char :=
    match t with
    | '-' :: rest => (-1, rest)
    | '+' :: rest => (1, rest)
    | _ => (1, t)
  if p.2 ≠ [] ∧ p.2.all Char.isDigit then some (p.1 * (digitsToNat p.2 : Int))
  else none

/-- Python `float(str)` restricted to plain decimal notation; exotic forms
(exponents, `inf`, `nan`) are treated as parse failures, which like real
parse failures fall back to the default. -/
def parseFloatStr (s : String) : Option Rat :=
  let t := trimChars s.data
  let p : Rat × List Char :=
    match t with
    | '-' :: rest => (-1, rest)
    | '+' :: rest => (1, rest)
    | _ => (1, t)
  let ip := p.2.takeWhile Char.isDigit
  match p.2.drop ip.length with
  | [] => if ip = [] then none else some (p.1 * (digitsToNat ip : Rat))
  | '.' :: frac =>
      if frac.all Char.isDigit ∧ (ip ≠ [] ∨ frac ≠ []) then
        some (p.1 * ((digitsToNat ip : Rat) + (digitsToNat frac : Rat) / (10 ^ frac.length)))
      else none
  | _ => none

/-- `int()` truncates toward zero. -/
def truncRat (q : Rat) : Int := if 0 ≤ q then Int.floor q else Int.ceil q

/-- Python `int(value)` on a JSON value, `none` when it raises. -/
def pyToInt : Jval → Option Int
  | .null => none
  | .bool b => some (if b then 1 else 0)
  | .int n => some n
  | .num q => some (truncRat q)
  | .str s => parseIntStr s

/-- Python `float(value)` on a JSON value, `none` when it raises. -/
def pyToFloat : Jval → Option Rat
  | .null => none
  | .bool b => some (if b then 1 else 0)
  | .int n => some (n : Rat)
  | .num q => some q
  | .str s => parseFloatStr s

/-- Python `str(value)` on a JSON value. -/
def pyStr : Jval → String
  | .null => "None"
  | .bool b => if b then "True" else "False"
  | .int n => toString n
  | .num q => toString q
  | .str s => s

/-- `utils.as_int`. -/
def as_int (v : Option Jval) (default lo hi : Int) : Int :=
  let parsed :=
    match v with
    | none => default
    | some jv => (pyToInt jv).getD default
  max lo (min hi parsed)

/-- `utils.as_float`. -/
def as_float (v : Option Jval) (default lo hi : Rat) : Rat :=
  let parsed :=
    match v with
    | none => default
    | some jv => (pyToFloat jv).getD default
  max lo (min hi parsed)

/-- `utils.as_bool`. -/
def as_bool (v : Option Jval) (default : Bool) : Bool :=
  match v with
  | none => default
  | some .null => default
  | some (.str s) =>
      let t := strLower (strTrim s)
      t = "1" || t = "true" || t = "yes" || t = "on"
  | some (.bool b) => b
  | some (.int n) => if n = 0 then false else true
  | some (.num q) => if q = 0 then false else true

/-- A raw (unvalidated) settings dictionary: any JSON value per key. -/
structure RawTurbo where
  use_simplify : Option Jval := none
  simplify_subdivision_render : Option Jval := none
  use_adaptive_sampling : Option Jval := none
  samples : Option Jval := none
  adaptive_threshold : Option Jval := none
  use_denoising : Option Jval := none
  denoiser : Option Jval := none
  max_bounces : Option Jval := none
  diffuse_bounces : Option Jval := none
  glossy_bounces : Option Jval := none
  transmission_bounces : Option Jval := none
  transparent_max_bounces : Option Jval := none
  volume_bounces : Option Jval := none
  clamp_direct : Option Jval := none
  clamp_indirect : Option Jval := none
  filter_glossy : Option Jval := none
  caustics_reflective : Option Jval := none
  caustics_refractive : Option Jval := none
  tile_size : Option Jval := none
  use_persistent_data : Option Jval := none
  use_hiprt : Option Jval := none
deriving DecidableEq, Repr

/-- A validated settings profile (the return shape of
`validate_turbo_settings`). -/
structure TurboSettings where
  use_simplify : Bool
  simplify_subdivision_render : Int
  use_adaptive_sampling : Bool
  samples : Int
  adaptive_threshold : Rat
  use_denoising : Bool
  denoiser : String
  max_bounces : Int
  diffuse_bounces : Int
  glossy_bounces : Int
  transmission_bounces : Int
  transparent_max_bounces : Int
  volume_bounces : Int
  clamp_direct : Rat
  clamp_indirect : Rat
  filter_glossy : Rat
  caustics_reflective : Bool
  caustics_refractive : Bool
  tile_size : Int
  use_persistent_data : Bool
  use_hiprt : Bool
deriving DecidableEq, Repr

/-- `turbo_settings.validate_turbo_settings`; the argument is `none` when
the raw value is absent or not a dictionary. -/
def validate_turbo_settings (raw : Option RawTurbo) : TurboSettings :=
  let source := raw.getD {}
  let dn := (pyStr (source.denoiser.getD (.str "OPENIMAGEDENOISE"))) |> strTrim |> strUpper
  { use_simplify := as_bool source.use_simplify true
    simplify_subdivision_render := as_int source.simplify_subdivision_render 4 0 5
    use_adaptive_sampling := as_bool source.use_adaptive_sampling true
    samples := as_int source.samples 4096 1 65536
    adaptive_threshold := as_float source.adaptive_threshold (1/1000) (1/1000000) 1
    use_denoising := as_bool source.use_denoising false
    denoiser := if dn = "OPENIMAGEDENOISE" ∨ dn = "OPTIX" ∨ dn = "NLM" then dn
                else "OPENIMAGEDENOISE"
    max_bounces := as_int source.max_bounces 8 0 64
    diffuse_bounces := as_int source.diffuse_bounces 2 0 64
    glossy_bounces := as_int source.glossy_bounces 2 0 64
    transmission_bounces := as_int source.transmission_bounces 4 0 64
    transparent_max_bounces := as_int source.transparent_max_bounces 4 0 64
    volume_bounces := as_int source.volume_bounces 0 0 64
    clamp_direct := as_float source.clamp_direct 0 0 100
    clamp_indirect := as_float source.clamp_indirect 0 0 100
    filter_glossy := as_float source.filter_glossy 0 0 10
    caustics_reflective := as_bool source.caustics_reflective false
    caustics_refractive := as_bool source.caustics_refractive false
    tile_size := as_int source.tile_size 1024 64 4096
    use_persistent_data := as_bool source.use_persistent_data false
    use_hiprt := as_bool source.use_hiprt true }

/-- Re-serialisation of validated settings as a dictionary (`dict(...)` of
the validated profile, used as the merge base). -/
def TurboSettings.toRaw (s : TurboSettings) : RawTurbo :=
  { use_simplify := some (.bool s.use_simplify)
    simplify_subdivision_render := some (.int s.simplify_subdivision_render)
    use_adaptive_sampling := some (.bool s.use_adaptive_sampling)
    samples := some (.int s.samples)
    adaptive_threshold := some (.num s.adaptive_threshold)
    use_denoising := some (.bool s.use_denoising)
    denoiser := some (.str s.denoiser)
    max_bounces := some (.int s.max_bounces)
    diffuse_bounces := some (.int s.diffuse_bounces)
    glossy_bounces := some (.int s.glossy_bounces)
    transmission_bounces := some (.int s.transmission_bounces)
    transparent_max_bounces := some (.int s.transparent_max_bounces)
    volume_bounces := some (.int s.volume_bounces)
    clamp_direct := some (.num s.clamp_direct)
    clamp_indirect := some (.num s.clamp_indirect)
    filter_glossy := some (.num s.filter_glossy)
    caustics_reflective := some (.bool s.caustics_reflective)
    caustics_refractive := some (.bool s.caustics_refractive)
    tile_size := some (.int s.tile_size)
    use_persistent_data := some (.bool s.use_persistent_data)
    use_hiprt := some (.bool s.use_hiprt) }

/-- `base.update(override)`: an override key that is present wins. -/
def RawTurbo.update (base override : RawTurbo) : RawTurbo :=
  { use_simplify := override.use_simplify.orElse fun _ => base.use_simplify
    simplify_subdivision_render :=
      override.simplify_subdivision_render.orElse fun _ => base.simplify_subdivision_render
    use_adaptive_sampling :=
      override.use_adaptive_sampling.orElse fun _ => base.use_adaptive_sampling
    samples := override.samples.orElse fun _ => base.samples
    adaptive_threshold := override.adaptive_threshold.orElse fun _ => base.adaptive_threshold
    use_denoising := override.use_denoising.orElse fun _ => base.use_denoising
    denoiser := override.denoiser.orElse fun _ => base.denoiser
    max_bounces := override.max_bounces.orElse fun _ => base.max_bounces
    diffuse_bounces := override.diffuse_bounces.orElse fun _ => base.diffuse_bounces
    glossy_bounces := override.glossy_bounces.orElse fun _ => base.glossy_bounces
    transmission_bounces := override.transmission_bounces.orElse fun _ => base.transmission_bounces
    transparent_max_bounces :=
      override.transparent_max_bounces.orElse fun _ => base.transparent_max_bounces
    volume_bounces := override.volume_bounces.orElse fun _ => base.volume_bounces
    clamp_direct := override.clamp_direct.orElse fun _ => base.clamp_direct
    clamp_indirect := override.clamp_indirect.orElse fun _ => base.clamp_indirect
    filter_glossy := override.filter_glossy.orElse fun _ => base.filter_glossy
    caustics_reflective := override.caustics_reflective.orElse fun _ => base.caustics_reflective
    caustics_refractive := override.caustics_refractive.orElse fun _ => base.caustics_refractive
    tile_size := override.tile_size.orElse fun _ => base.tile_size
    use_persistent_data := override.use_persistent_data.orElse fun _ => base.use_persistent_data
    use_hiprt := override.use_hiprt.orElse fun _ => base.use_hiprt }

/-- `turbo_settings.build_turbo_settings_for_job`: validate the configured
profile, merge in the job-specific override map when it is a dictionary,
validate again.  `cfg` is the persisted `TURBO_SETTINGS` configuration
value, `override` the job record's `turbo_settings_override`. -/
def build_turbo_settings_for_job (cfg : Option RawTurbo) (override : Option RawTurbo) :
    TurboSettings :=
  let base := (validate_turbo_settings cfg).toRaw
  let merged :=
    match override with
    | some o => RawTurbo.update base o
    | none => base
  validate_turbo_settings (some merged)

/-- The validated ranges from `validate_turbo_settings`.  The boolean
fields are `Bool`-typed, hence "actual booleans" by construction. -/
def turboInRanges (s : TurboSettings) : Prop :=
  0 ≤ s.simplify_subdivision_render ∧ s.simplify_subdivision_render ≤ 5 ∧
  1 ≤ s.samples ∧ s.samples ≤ 65536 ∧
  64 ≤ s.tile_size ∧ s.tile_size ≤ 4096 ∧
  (1/1000000 : Rat) ≤ s.adaptive_threshold ∧ s.adaptive_threshold ≤ 1 ∧
  0 ≤ s.max_bounces ∧ s.max_bounces ≤ 64 ∧
  0 ≤ s.diffuse_bounces ∧ s.diffuse_bounces ≤ 64 ∧
  0 ≤ s.glossy_bounces ∧ s.glossy_bounces ≤ 64 ∧
  0 ≤ s.transmission_bounces ∧ s.transmission_bounces ≤ 64 ∧
  0 ≤ s.transparent_max_bounces ∧ s.transparent_max_bounces ≤ 64 ∧
  0 ≤ s.volume_bounces ∧ s.volume_bounces ≤ 64 ∧
  (0 : Rat) ≤ s.clamp_direct ∧ s.clamp_direct ≤ 100 ∧
  (0 : Rat) ≤ s.clamp_indirect ∧ s.clamp_indirect ≤ 100 ∧
  (0 : Rat) ≤ s.filter_glossy ∧ s.filter_glossy ≤ 10 ∧
  (s.denoiser = "OPENIMAGEDENOISE" ∨ s.denoiser = "OPTIX" ∨ s.denoiser = "NLM")

/-! ## Job records and mode normalisation (`jobs.py`) -/

/-- `jobs.normalize_mode`. -/
def normalize_mode (raw : Option String) : String :=
  let mode := (pyOr raw "TURBO") |> strTrim |> strUpper
  if mode = "CUSTOM" ∨ mode = "ARTIST" then "ARTIST" else "TURBO"

/-- `jobs.normalize_artist_render_mode`. -/
def normalize_artist_render_mode (raw : Option String) : String :=
  let mode := (pyOr raw "NORMAL") |> strTrim |> strUpper
  if mode = "COMP" ∨ mode = "COMPOSITE" ∨ mode = "COMPOSITOR" then "COMPOSITOR"
  else if ¬ (mode = "NORMAL" ∨ mode = "COMPOSITOR") then "NORMAL"
  else mode

/-- A job's sidecar metadata.  Each field is `none` when the key is absent
from (or `null` in) the JSON dictionary. -/
structure JobMeta where
  id : Option String := none
  original_filename : Option String := none
  stored_filename : Option String := none
  root_id : Option String := none
  retry_of : Option String := none
  attempt : Option Int := none
  note : Option String := none
  mode : Option String := none
  artist_render_mode : Option String := none
  artist_use_hiprt : Option Bool := none
  artist_simplify_subdiv : Option Int := none
  created_at : Option String := none
  queued_at : Option String := none
  state : Option String := none
  queue_priority : Option Int := none
  hiprt_used : Option Bool := none
  auto_retry_of : Option String := none
  auto_retry_done : Option Bool := none
  auto_retry_job_id : Option String := none
  recovered_at : Option String := none
  turbo_settings_override : Option RawTurbo := none
deriving DecidableEq, Repr

/-- `str(name).lower().endswith(".blend")`. -/
def endsWithBlend (s : String) : Bool :=
  ".blend".data.reverse.isPrefixOf (strLower s).data.reverse

/-! ## Auto-retry policy (`worker.worker_loop` lines 283-305,
`jobs.enqueue_auto_retry` lines 436-470) -/

/-- The guard of the auto-retry policy, with Python truthiness for the
`hiprt_used`, `auto_retry_of` and `auto_retry_done` fields. -/
def autoRetryGuard (state : String) (meta : JobMeta) : Bool :=
  state == "FAILED" && normalize_mode meta.mode == "TURBO" &&
    meta.hiprt_used.getD false && strFalsy meta.auto_retry_of &&
    !(meta.auto_retry_done.getD false)

/-- `worker_loop` lines 283-293: evaluate the guard and, when it fires,
mark the record `auto_retry_done` and choose the successor id. -/
def workerAutoRetryMark (meta : JobMeta) (state : String) (newId : String) :
    JobMeta × Option String :=
  if autoRetryGuard state meta then
    ({ meta with auto_retry_done := some true, auto_retry_job_id := some newId }, some newId)
  else (meta, none)

/-- The explicit override written by `enqueue_auto_retry`:
`{"use_hiprt": False}`. -/
def hiprtOffOverride : RawTurbo := { use_hiprt := some (.bool false) }

/-- `jobs.enqueue_auto_retry`: the successor record written beside the
re-queued copy of the artifact.  `uniq` models `unique_filename`; the
`FileNotFoundError` branch for a missing source artifact concerns the
filesystem, not the successor record, and is handled by the caller's
`except` (`worker_loop` line 304). -/
def enqueue_auto_retry (meta : JobMeta) (newId : String)
    (uniq : String → String) (nowIso : String) (nowMs : Int) : JobMeta :=
  let base0 := pyOr meta.stored_filename (pyOr meta.original_filename (newId ++ ".blend"))
  let baseName := if endsWithBlend base0 then base0 else base0 ++ ".blend"
  { id := some newId
    original_filename := some (pyOr meta.original_filename baseName)
    stored_filename := some (uniq baseName)
    mode := some (normalize_mode meta.mode)
    artist_render_mode := some (normalize_artist_render_mode meta.artist_render_mode)
    created_at := some nowIso
    state := some "QUEUED"
    queued_at := some nowIso
    retry_of := meta.id
    root_id := some (pyOr meta.root_id (pyOr meta.id newId))
    attempt := some (pyOrInt meta.attempt 1 + 1)
    note := some (meta.note.getD "")
    auto_retry_of := meta.id
    queue_priority := some nowMs
    turbo_settings_override := some hiprtOffOverride }

/-! ## Worker finalisation and cancellation
(`worker.worker_loop` lines 225-305, `app.cancel` lines 389-402) -/

/-- Terminal-state classification at the end of one worker iteration
(`worker_loop` lines 273-281): the stop flag wins unconditionally, then
exit code 0 means DONE, anything else FAILED.  Returns (state, reason). -/
def worker_final_state (stopSet : Bool) (returncode : Int) : String × String :=
  if stopSet then ("CANCELED", "Vom Benutzer abgebrochen")
  else if returncode = 0 then ("DONE", "Render fertig")
  else ("FAILED", "Render fehlgeschlagen (rc=" ++ toString returncode ++ ")")

/-- The observable condition of the external child process. -/
structure ProcState where
  alive : Bool
  termSignaled : Bool := false
  killed : Bool := false
deriving DecidableEq, Repr

/-- `Popen.terminate()`: sends SIGTERM and returns; signal delivery is
asynchronous, so the child is not yet stopped when the call returns. -/
def procTerminate (p : ProcState) : ProcState := { p with termSignaled := true }

/-- The shared state read and written by the `/cancel` route: the current
job snapshot's status, the stop event, and the active-process handle. -/
structure CancelCtx where
  status : String
  stopEvent : Bool
  activeProc : Option ProcState
deriving DecidableEq, Repr

/-- `app.cancel` (lines 389-402): when the snapshot shows RENDERING, set
the stop event, send `terminate()` to a still-running child, and return
success; otherwise return an error.  The boolean is the `ok` of the
response. -/
def cancel (s : CancelCtx) : CancelCtx × Bool :=
  if s.status = "RENDERING" then
    let s1 : CancelCtx := { s with stopEvent := true }
    match s1.activeProc with
    | some p => if p.alive then ({ s1 with activeProc := some (procTerminate p) }, true)
                else (s1, true)
    | none => (s1, true)
  else (s, false)

/-- The worker's in-loop cancellation path (`worker_loop` lines 247-252):
terminate, wait a bounded grace period, kill on timeout.  Either way the
child is stopped when this returns. -/
def worker_stop_child (p : ProcState) (exitsInGrace : Bool) : ProcState :=
  let p1 := procTerminate p
  if exitsInGrace then { p1 with alive := false }
  else { p1 with alive := false, killed := true }

/-! ## One worker iteration as a total step function
(`worker_loop` lines 134-305) -/

/-- How the supervised render attempt ended: a reaped exit code, or an
exception (spawn failure, I/O error) caught by the `except` block. -/
inductive RunOutcome where
  | completed (rc : Int)
  | fault (msg : String)
deriving DecidableEq, Repr

/-- The environment of one claimed-job iteration: whether moving the job
into processing succeeded (lines 150-167), how the run ended, the stop
flag at classification time, and whether `finalize_job` succeeded
(lines 295-299). -/
structure StepInput where
  moveOk : Bool
  outcome : RunOutcome
  stopSet : Bool
  finalizeOk : Bool
deriving DecidableEq, Repr

/-- The terminal record written for the job. -/
structure FinalRecord where
  state : String
  returncode : Int
  reason : String
deriving DecidableEq, Repr

/-- The observable outcome of one iteration: whether the loop proceeds to
the next poll, the finalised record (none when the job never reached the
run stage), and whether archiving succeeded. -/
structure StepOutput where
  continues : Bool
  finalized : Option FinalRecord
  archived : Bool
deriving DecidableEq, Repr

/-- One `worker_loop` iteration for a claimed job.  Every failure path is
caught in the source (`except` at lines 164, 261, 297, 304), so every
input maps to a `continues := true` output.  On a fault the exit code
keeps its initialisation `-1` (line 225); the classification at lines
273-281 then overwrites the reason variable. -/
def worker_step (inp : StepInput) : StepOutput :=
  if ¬ inp.moveOk then { continues := true, finalized := none, archived := false }
  else
    let returncode :=
      match inp.outcome with
      | .completed rc => rc
      | .fault _ => -1
    let sr := worker_final_state inp.stopSet returncode
    { continues := true
      finalized := some ⟨sr.1, returncode, sr.2⟩
      archived := inp.finalizeOk }

/-- Substring test (used to state that a reason text carries a message). -/
def listContainsSub (pat s : List Char) : Bool :=
  (List.range (s.length + 1)).any (fun i => pat.isPrefixOf (s.drop i))

/-! ## Queue view (`jobs.get_render_queue` lines 191-199) -/

/-- Lexicographic code-point comparison of character lists, as Python
compares strings. -/
def charListLE : List Char → List Char → Bool
  | [], _ => true
  | _ :: _, [] => false
  | a :: as, b :: bs => if a < b then true else if b < a then false else charListLE as bs

/-- Python string `<=`. -/
def strLE (a b : String) : Bool := charListLE a.data b.data

/-- One entry of the list built by `get_queue` (the fields read by
`get_render_queue` and the reorder routes). -/
structure QueueItem where
  filename : String
  id : String := ""
  state : String := ""
  queue_priority : Option Int := none
  queued_at : Option String := none
  created_at : Option String := none
deriving DecidableEq, Repr

/-- The timestamp component of the sort key:
`item.get("queued_at") or item.get("created_at") or ""`. -/
def itemTs (it : QueueItem) : String := pyOr it.queued_at (pyOr it.created_at "")

/-- The sort key comparison of `get_render_queue`: `queue_priority`
ascending with a missing priority treated as `float("inf")`, then the
timestamp string. -/
def queueKeyLE (a b : QueueItem) : Bool :=
  match a.queue_priority, b.queue_priority with
  | none, none => strLE (itemTs a) (itemTs b)
  | none, some _ => false
  | some _, none => true
  | some x, some y => decide (x < y) || (decide (x = y) && strLE (itemTs a) (itemTs b))

/-- The sort relation as a proposition (`sorted(key=...)` with a stable
sort). -/
def queueLE (a b : QueueItem) : Prop := queueKeyLE a b = true

instance : DecidableRel queueLE := fun a b =>
  inferInstanceAs (Decidable (queueKeyLE a b = true))

/-- `jobs.get_render_queue`: filter the inbox view to QUEUED and sort by
the key; `List.insertionSort` is stable, like Python's `sort`. -/
def get_render_queue (items : List QueueItem) : List QueueItem :=
  List.insertionSort queueLE (items.filter (fun it => it.state == "QUEUED"))

/-! ## Queue reorder operations (`app.move_queue_job` lines 205-255,
`app.start_all_jobs` lines 293-312, `app.reorder_queue` lines 258-290) -/

/-- `app.move_queue_job`: sort the QUEUED entries by the key, move the
requested entry one up / one down / to the top, then renumber every entry
with its new index as `queue_priority`.  Returns `none` for an invalid
direction or an id not in the queue (HTTP 400/404). -/
def move_queue_job (entries : List QueueItem) (jobId direction : String) :
    Option (List (QueueItem × Int)) :=
  if ¬ (direction = "up" ∨ direction = "down" ∨ direction = "top") then none
  else
    let sorted := List.insertionSort queueLE entries
    let ids := sorted.map (fun e => e.id)
    match ids.indexOf? jobId with
    | none => none
    | some idx =>
        let tgt : Nat :=
          if direction = "up" then idx - 1
          else if direction = "down" then min (sorted.length - 1) (idx + 1)
          else 0
        let moved :=
          if idx ≠ tgt then
            match sorted.get? idx with
            | some it => (sorted.eraseIdx idx).insertIdx tgt it
            | none => sorted
          else sorted
        some (moved.enum.map (fun p => (p.2, (p.1 : Int))))

/-- `app.start_all_jobs`: compute `max((queue_priority or 0) for QUEUED,
default=0)` and hand out `max+1, max+2, ...` to the PENDING records in
iteration order.  Returns the priorities assigned to the newly queued
records. -/
def pyMaxOr0 (l : List Int) : Int :=
  match l with
  | [] => 0
  | h :: t => t.foldl max h

def start_all_jobs (queuedPriorities : List (Option Int)) (pendingCount : Nat) : List Int :=
  let maxP : Int := pyMaxOr0 (queuedPriorities.map (fun o => pyOrInt o 0))
  (List.range pendingCount).map (fun i => maxP + 1 + Int.ofNat i)

/-- `app.reorder_queue`: keep the requested ids that exist (first
occurrence only), append every remaining inbox id in iteration order, and
assign each id its index as `queue_priority`.  `ids` are the ids of all
inbox records (QUEUED and PENDING alike). -/
def reorder_queue (ids : List String) (order : List String) :
    List (String × Int) :=
  let normalized := order.foldl
    (fun acc jid => if jid ∈ ids ∧ jid ∉ acc then acc ++ [jid] else acc) []
  let full := normalized ++ ids.filter (fun i => decide (i ∉ normalized))
  full.enum.filterMap
    (fun p => if p.2 ∈ ids then some (p.2, (p.1 : Int)) else none)

/-- Two QUEUED inbox records with identical priority and timestamp
(distinct files): a sort-key tie. -/
def qTieA : QueueItem :=
  { filename := "a.blend", id := "A", state := "QUEUED",
    queue_priority := some 5, queued_at := some "2024-01-01T00:00:00" }

def qTieB : QueueItem :=
  { filename := "b.blend", id := "B", state := "QUEUED",
    queue_priority := some 5, queued_at := some "2024-01-01T00:00:00" }

/-! ## Recovery scanner (`jobs.unique_filename` lines 75-90,
`jobs.recover_processing_jobs` lines 257-293) -/

/-- The candidate loop of `jobs.unique_filename`.  `blocked` is the
collision test (file exists in the inbox, or equals the name currently
being rendered); `stamp` is the timestamp string observed on iteration
`counter`.  Fuel bounds the loop; `none` means the fuel ran out. -/
def uniqueFilenameAux (blocked : String → Bool) (base suffix : String)
    (stamp : Nat → String) : Nat → Nat → String → Option String
  | 0, _, _ => none
  | fuel + 1, counter, candidate =>
      if ¬ blocked candidate then some candidate
      else
        let pf := if counter > 1 then stamp counter ++ "-" ++ toString counter
                  else stamp counter
        uniqueFilenameAux blocked base suffix stamp fuel (counter + 1)
          (base ++ "__" ++ pf ++ suffix)

/-- `Path(name).suffix`: the final extension including its dot (empty for
no dot or a leading dot). -/
def fileSuffix (s : String) : String :=
  let rev := s.data.reverse
  let pre := rev.takeWhile (fun c => c ≠ '.')
  if pre.length + 1 < rev.length then String.mk ('.' :: pre.reverse)
  else if pre.length + 1 = rev.length ∧ 1 < rev.length then String.mk ('.' :: pre.reverse)
  else ""

/-- `Path(name).stem`: the name with `fileSuffix` removed. -/
def fileStem (s : String) : String :=
  String.mk (s.data.take (s.data.length - (fileSuffix s).data.length))

/-- `jobs.unique_filename`. -/
def unique_filename (blocked : String → Bool) (stamp : Nat → String)
    (fuel : Nat) (name : String) : Option String :=
  uniqueFilenameAux blocked (fileStem name) (fileSuffix name) stamp fuel 1 name

/-- One leftover directory in the processing area: its name, the files it
contains, and the parsed `job.json` (meaningful only when present). -/
structure ProcEntry where
  name : String
  files : List String
  meta : JobMeta := {}
deriving DecidableEq, Repr

/-- What the recovery scanner does to one entry. -/
inductive RecoveryAction where
  /-- The whole directory is moved into the FAILED archive under `target`
  (nothing is deleted). -/
  | quarantine (target : String)
  /-- The artifact is moved back to the inbox as `restoredName`, the given
  sidecar is written, and the processing directory is deleted while still
  holding `dirContentsAtRemoval`. -/
  | restore (restoredName : String) (meta : JobMeta)
      (dirContentsAtRemoval : List String)
deriving DecidableEq, Repr

/-- `jobs.recover_processing_jobs`, one directory entry
(lines 258-293).  `failedDirHas` tests for a name collision in the FAILED
archive, `uuidHex` is the random disambiguation suffix, `freshId` the
`make_job_id()` fallback, and `blocked`/`stamp`/`fuel` parameterise
`unique_filename`.  Returns `none` only when the `unique_filename` fuel
runs out. -/
def recover_processing_entry (e : ProcEntry) (failedDirHas : String → Bool)
    (uuidHex : String) (freshId : String) (nowIso : String)
    (blocked : String → Bool) (stamp : Nat → String) (fuel : Nat) :
    Option RecoveryAction :=
  if ¬ (e.files.contains "job.blend" ∧ e.files.contains "job.json") then
    let target0 := "recovery-broken-" ++ e.name
    let target := if failedDirHas target0 then target0 ++ "-" ++ uuidHex else target0
    some (.quarantine target)
  else
    let meta := e.meta
    let mode := normalize_mode meta.mode
    let desired0 := pyOr meta.stored_filename
      (pyOr meta.original_filename (e.name ++ ".blend"))
    let desired := if endsWithBlend desired0 then desired0 else desired0 ++ ".blend"
    match unique_filename blocked stamp fuel desired with
    | none => none
    | some restored =>
        let newMeta : JobMeta :=
          { meta with
            id := some (pyOr meta.id freshId)
            mode := some mode
            artist_render_mode := some (normalize_artist_render_mode meta.artist_render_mode)
            stored_filename := some restored
            state := some "QUEUED"
            recovered_at := some nowIso
            attempt := some (pyOrInt meta.attempt 1 + 1)
            root_id := if strFalsy meta.root_id then some (pyOr meta.id freshId)
                       else meta.root_id }
        some (.restore restored newMeta (e.files.erase "job.blend"))

/-- The directory contents at removal time of a restore action. -/
def recoveryDirContents : Option RecoveryAction → Option (List String)
  | some (.restore _ _ contents) => some contents
  | _ => none

/-- A processing entry holding exactly the artifact and the sidecar. -/
def procEntry0 : ProcEntry :=
  { name := "job-1",
    files := ["job.blend", "job.json"],
    meta := { id := some "job-1", stored_filename := some "scene.blend",
              mode := some "TURBO", attempt := some 1 } }

/-- The queue `[A(pri 0), B(pri 1), C(pri 2)]` of the spec's reorder
example. -/
def qExA : QueueItem :=
  { filename := "a.blend", id := "A", state := "QUEUED", queue_priority := some 0 }

def qExB : QueueItem :=
  { filename := "b.blend", id := "B", state := "QUEUED", queue_priority := some 1 }

def qExC : QueueItem :=
  { filename := "c.blend", id := "C", state := "QUEUED", queue_priority := some 2 }

/-! ## Sidecar reconciliation (`jobs.ensure_queue_sidecar` lines 93-163)

The record is repaired field by field; every `changed := True` assignment
of the source is one disjunct of `ensureChanged`.  `freshId` is the result
of the `make_job_id()` call for a missing id, `freshId2` the (in practice
unreachable) second call in the `root_id` default, `nowIso`/`nowMs` the
timestamps. -/

structure EnsureEnv where
  freshId : String
  freshId2 : String
  nowIso : String
  nowMs : Int
deriving DecidableEq, Repr

/-- `"ARTIST" if "_CUSTOM" in blend_path.name else "TURBO"`. -/
def inferredMode (blendName : String) : String :=
  if listContainsSub "_CUSTOM".data blendName.data then "ARTIST" else "TURBO"

/-- `str(metadata.get("state") or "").upper()`. -/
def curStateOf (vState : Option String) : String := strUpper (pyOr vState "")

/-- `current_state in context.INPUT_JOB_STATES`. -/
def curStateValidOf (vState : Option String) : Bool :=
  curStateOf vState == "PENDING" || curStateOf vState == "QUEUED"

/-- `current_state == "QUEUED" and metadata.get("queue_priority") is None`. -/
def qpFiresOf (vState : Option String) (vqp : Option Int) : Bool :=
  curStateOf vState == "QUEUED" && vqp.isNone

/-- The repaired record: the mutations of lines 100-158 applied in order
(`root_id` sees the already-filled id; `queue_priority` keys on the
uppercased original state). -/
def ensureRepair (env : EnsureEnv) (blendName : String) (m : JobMeta) : JobMeta :=
  let id1 := if strFalsy m.id then some env.freshId else m.id
  { m with
    id := id1
    original_filename := if strFalsy m.original_filename then some blendName
                         else m.original_filename
    root_id := if strFalsy m.root_id then some (pyOr id1 env.freshId2) else m.root_id
    attempt := if intFalsy m.attempt then some 1 else m.attempt
    note := if m.note.isNone then some "" else m.note
    stored_filename := some blendName
    mode := some (normalize_mode (some (pyOr m.mode (inferredMode blendName))))
    artist_render_mode := some (normalize_artist_render_mode m.artist_render_mode)
    artist_use_hiprt := some (m.artist_use_hiprt.getD false)
    artist_simplify_subdiv := some (max 0 (min 5 (m.artist_simplify_subdiv.getD 0)))
    created_at := if strFalsy m.created_at then some env.nowIso else m.created_at
    state := if curStateValidOf m.state then some (curStateOf m.state) else some "PENDING"
    queue_priority := if qpFiresOf m.state m.queue_priority then some env.nowMs
                      else m.queue_priority }

/-- The accumulated `changed` flag, one disjunct per `changed = True`
site. -/
def ensureChanged (blendName : String) (m : JobMeta) : Bool :=
  strFalsy m.id ||
  strFalsy m.original_filename ||
  strFalsy m.root_id ||
  intFalsy m.attempt ||
  m.note.isNone ||
  decide (m.stored_filename ≠ some blendName) ||
  decide (m.mode ≠ some (normalize_mode (some (pyOr m.mode (inferredMode blendName))))) ||
  decide (m.artist_render_mode ≠ some (normalize_artist_render_mode m.artist_render_mode)) ||
  decide (m.artist_use_hiprt ≠ some (m.artist_use_hiprt.getD false)) ||
  decide (m.artist_simplify_subdiv ≠ some (max 0 (min 5 (m.artist_simplify_subdiv.getD 0)))) ||
  strFalsy m.created_at ||
  (if curStateValidOf m.state then decide (m.state ≠ some (curStateOf m.state)) else true) ||
  qpFiresOf m.state m.queue_priority

/-- `jobs.ensure_queue_sidecar`: the repaired record, the `changed` flag,
and whether the sidecar is written back
(`changed or not json_path.exists()`). -/
def ensure_queue_sidecar (env : EnsureEnv) (blendName : String)
    (jsonExists : Bool) (m : JobMeta) : JobMeta × Bool × Bool :=
  let changed := ensureChanged blendName m
  (ensureRepair env blendName m, changed, changed || !jsonExists)

/-! # Supporting lemmas -/

theorem charListLE_total : ∀ a b : List Char, charListLE a b = true ∨ charListLE b a = true
  | [], _ => Or.inl rfl
  | _ :: _, [] => Or.inr rfl
  | a :: as, b :: bs => by
      rcases lt_trichotomy a b with h | h | h
      · left; simp [charListLE, h]
      · subst h
        rcases charListLE_total as bs with ih | ih
        · left; simp [charListLE, ih]
        · right; simp [charListLE, ih]
      · right; simp [charListLE, h]

theorem charListLE_trans :
    ∀ a b c : List Char, charListLE a b = true → charListLE b c = true →
      charListLE a c = true
  | [], _, _, _, _ => rfl
  | _ :: _, [], _, hab, _ => by cases hab
  | _ :: _, _ :: _, [], _, hbc => by cases hbc
  | a :: as, b :: bs, c :: cs, hab, hbc => by
      simp only [charListLE] at hab hbc ⊢
      by_cases h1 : a < b
      · by_cases h2 : b < c
        · simp [lt_trans h1 h2]
        · by_cases h3 : c < b
          · simp [h2, h3] at hbc
          · have hbc2 : b = c := le_antisymm (not_lt.mp h3) (not_lt.mp h2)
            subst hbc2
            simp [h1]
      · by_cases h1' : b < a
        · simp [h1, h1'] at hab
        · have hab2 : a = b := le_antisymm (not_lt.mp h1') (not_lt.mp h1)
          subst hab2
          by_cases h2 : a < c
          · simp [h2]
          · by_cases h3 : c < a
            · simp [h2, h3] at hbc
            · have htail := charListLE_trans as bs cs
                (by simpa [lt_irrefl] using hab) (by simpa [h2, h3] using hbc)

              simp [h2, h3, htail]

instance : IsTotal QueueItem queueLE where
  total a b := by
    unfold queueLE queueKeyLE
    cases ha : a.queue_priority with
    | none =>
        cases hb : b.queue_priority with
        | none =>
            rcases charListLE_total (itemTs a).data (itemTs b).data with h | h
            · left; simpa [strLE] using h
            · right; simpa [strLE] using h
        | some y => right; simp
    | some x =>
        cases hb : b.queue_priority with
        | none => left; simp
        | some y =>
            rcases lt_trichotomy x y with h | h | h
            · left; simp [h]
            · subst h
              rcases charListLE_total (itemTs a).data (itemTs b).data with h | h
              · left; simp [strLE, h]
              · right; simp [strLE, h]
            · right; simp [h]

instance : IsTrans QueueItem queueLE where
  trans a b c hab hbc := by
    unfold queueLE queueKeyLE at *
    cases ha : a.queue_priority with
    | none =>
        cases hb : b.queue_priority with
        | some y => simp [ha, hb] at hab
        | none =>
            cases hc : c.queue_priority with
            | some z => simp [hb, hc] at hbc
            | none =>
                simp only [ha, hb, hc, strLE] at hab hbc ⊢
                exact charListLE_trans _ _ _ hab hbc
    | some x =>
        cases hc : c.queue_priority with
        | none => cases hcar : b.queue_priority <;> simp
        | some z =>
            cases hb : b.queue_priority with
            | none => simp [hb, hc] at hbc
            | some y =>
                simp only [ha, hb, hc, strLE, Bool.or_eq_true, Bool.and_eq_true,
                  decide_eq_true_eq] at hab hbc ⊢
                rcases hab with hab | ⟨hab, hab'⟩
                · rcases hbc with hbc | ⟨hbc, _⟩
                  · exact Or.inl (lt_trans hab hbc)
                  · exact Or.inl (hbc ▸ hab)
                · rcases hbc with hbc | ⟨hbc, hbc'⟩
                  · exact Or.inl (hab ▸ hbc)
                  · exact Or.inr ⟨hab.trans hbc, charListLE_trans _ _ _ hab' hbc'⟩

theorem pyOrInt_some_zero (n : Int) : pyOrInt (some n) 0 = n := by
  unfold pyOrInt
  by_cases h : n = 0 <;> simp [h]

theorem foldl_max_init (l : List Int) (init : Int) : init ≤ l.foldl max init := by
  induction l generalizing init with
  | nil => exact le_refl _
  | cons h t ih => exact le_trans (le_max_left init h) (ih (max init h))

theorem mem_le_foldl_max (l : List Int) (x : Int) (hx : x ∈ l) :
    ∀ init : Int, x ≤ l.foldl max init := by
  induction l with
  | nil => cases hx
  | cons h t ih =>
      intro init
      rcases List.mem_cons.mp hx with rfl | hx'
      · exact le_trans (le_max_right init x) (foldl_max_init t (max init x))
      · exact ih hx' (max init h)

theorem le_pyMaxOr0 (l : List Int) (x : Int) (hx : x ∈ l) : x ≤ pyMaxOr0 l := by
  cases l with
  | nil => cases hx
  | cons h t =>
      rcases List.mem_cons.mp hx with rfl | hx'
      · exact foldl_max_init t x
      · exact mem_le_foldl_max t x hx' h

/-- Renumbering by `enumerate` yields exactly the indices `0..n-1`. -/
theorem enum_snd_map_eq_range {α : Type} (l : List (Nat × α)) :
    (l.map (fun p => ((p.2, (p.1 : Int)) : α × Int))).map Prod.snd =
      (l.map Prod.fst).map Int.ofNat := by
  induction l with
  | nil => rfl
  | cons h t ih => simp [ih]

theorem enum_index_priorities {α : Type} (l : List α) :
    (l.enum.map (fun p => ((p.2, (p.1 : Int)) : α × Int))).map Prod.snd =
      (List.range l.length).map Int.ofNat := by
  rw [enum_snd_map_eq_range, List.enum_map_fst]

theorem reorder_fold_subset (ids : List String) :
    ∀ (order acc : List String), (∀ x ∈ acc, x ∈ ids) →
      ∀ x ∈ order.foldl
        (fun acc jid => if jid ∈ ids ∧ jid ∉ acc then acc ++ [jid] else acc) acc,
        x ∈ ids := by
  intro order
  induction order with
  | nil => intro acc hacc x hx; exact hacc x hx
  | cons j rest ih =>
      intro acc hacc x hx
      simp only [List.foldl_cons] at hx
      by_cases hj : j ∈ ids ∧ j ∉ acc
      · rw [if_pos hj] at hx
        refine ih (acc ++ [j]) ?_ x hx
        intro y hy
        rcases List.mem_append.mp hy with hy | hy
        · exact hacc y hy
        · rcases List.mem_singleton.mp hy with rfl
          exact hj.1
      · rw [if_neg hj] at hx
        exact ih acc hacc x hx

theorem strFalsy_fill_iff (v : Option String) (d : String) (hd : d ≠ "") :
    (strFalsy v = false) ↔ (if strFalsy v then some d else v) = v := by
  cases v with
  | none => simp [strFalsy]
  | some s =>
      by_cases hs : s = ""
      · subst hs; simp [strFalsy, hd]
      · simp [strFalsy, hs]

theorem intFalsy_fill_iff (v : Option Int) :
    (intFalsy v = false) ↔ (if intFalsy v then some 1 else v) = v := by
  cases v with
  | none => simp [intFalsy]
  | some n =>
      by_cases hn : n = 0
      · subst hn; simp [intFalsy]
      · simp [intFalsy, hn]

theorem isNone_fill_iff (v : Option String) :
    (v.isNone = false) ↔ (if v.isNone then some "" else v) = v := by
  cases v <;> simp

theorem decide_ne_set_iff {α : Type} [DecidableEq α] (v : Option α) (x : α) :
    (decide (v ≠ some x) = false) ↔ some x = v := by
  constructor
  · intro h
    exact (not_not.mp (of_decide_eq_false h)).symm
  · intro h
    exact decide_eq_false (not_not.mpr h.symm)

theorem id1_truthy (vId : Option String) (freshId freshId2 : String)
    (hfresh : freshId ≠ "") :
    pyOr (if strFalsy vId then some freshId else vId) freshId2 ≠ "" := by
  cases vId with
  | none => simp [strFalsy, pyOr, hfresh]
  | some s =>
      by_cases hs : s = ""
      · subst hs
        simp [strFalsy, pyOr, hfresh]
      · have h1 : strFalsy (some s) = false := by
          unfold strFalsy
          simpa using hs
        simp [h1, pyOr, hs]

theorem some_ne_falsy (v : Option String) (w : String) (hv : strFalsy v = true)
    (hw : w ≠ "") : some w ≠ v := by
  cases v with
  | none => simp
  | some s =>
      have hs : s = "" := by simpa [strFalsy] using hv
      subst hs
      simpa using hw

theorem root_fill_iff (vRoot vId : Option String) (freshId freshId2 : String)
    (hfresh : freshId ≠ "") :
    (strFalsy vRoot = false) ↔
      (if strFalsy vRoot then
        some (pyOr (if strFalsy vId then some freshId else vId) freshId2)
       else vRoot) = vRoot := by
  by_cases hr : strFalsy vRoot = true
  · simp [hr]
    exact some_ne_falsy _ _ hr (id1_truthy vId freshId freshId2 hfresh)
  · have hr' : strFalsy vRoot = false := by simpa using hr
    simp [hr']

theorem curStateOf_pending : curStateOf (some "PENDING") = "PENDING" := by decide

theorem state_fill_iff (vState : Option String) :
    ((if curStateValidOf vState then decide (vState ≠ some (curStateOf vState))
      else true) = false) ↔
      (if curStateValidOf vState then some (curStateOf vState) else some "PENDING") =
        vState := by
  by_cases hv : curStateValidOf vState = true
  · simp only [hv, if_true]
    exact decide_ne_set_iff _ _
  · have hv' : curStateValidOf vState = false := by simpa using hv
    simp [hv']
    intro heq
    have hst : vState = some "PENDING" := heq.symm
    rw [hst] at hv'
    revert hv'
    decide

theorem qp_fill_iff (vState : Option String) (vqp : Option Int) (nowMs : Int) :
    (qpFiresOf vState vqp = false) ↔
      (if qpFiresOf vState vqp then some nowMs else vqp) = vqp := by
  by_cases hq : qpFiresOf vState vqp = true
  · simp [hq]
    have hq2 := hq
    unfold qpFiresOf at hq2
    rw [Bool.and_eq_true] at hq2
    have hnone : vqp = none := Option.isNone_iff_eq_none.mp hq2.2
    rw [hnone]
    simp
  · have hq' : qpFiresOf vState vqp = false := by simpa using hq
    simp [hq']

theorem normalize_mode_cases (raw : Option String) :
    normalize_mode raw = "TURBO" ∨ normalize_mode raw = "ARTIST" := by
  unfold normalize_mode
  dsimp only
  split
  · right; rfl
  · left; rfl

theorem normalize_artist_render_mode_cases (raw : Option String) :
    normalize_artist_render_mode raw = "NORMAL" ∨
      normalize_artist_render_mode raw = "COMPOSITOR" := by
  unfold normalize_artist_render_mode
  dsimp only
  split
  · right; rfl
  · split
    · left; rfl
    · next h2 =>
        rcases not_not.mp h2 with h | h
        · left; exact h
        · right; exact h

theorem ensureChanged_iff (env : EnsureEnv) (blendName : String) (m : JobMeta)
    (hfresh : env.freshId ≠ "") (hnow : env.nowIso ≠ "") (hblend : blendName ≠ "") :
    (ensureChanged blendName m = false) ↔ ensureRepair env blendName m = m := by
  obtain ⟨fid, forig, fstored, froot, fretry, fatt, fnote, fmode, farm, fhiprt, fsub,
    fcreated, fqat, fstate, fqp, fhu, faro, fard, farj, frec, ftso⟩ := m
  unfold ensureChanged ensureRepair
  dsimp only
  simp only [Bool.or_eq_false_iff, JobMeta.mk.injEq]
  rw [strFalsy_fill_iff fid env.freshId hfresh,
      strFalsy_fill_iff forig blendName hblend,
      root_fill_iff froot fid env.freshId env.freshId2 hfresh,
      intFalsy_fill_iff fatt,
      isNone_fill_iff fnote,
      decide_ne_set_iff fstored blendName,
      decide_ne_set_iff fmode (normalize_mode (some (pyOr fmode (inferredMode blendName)))),
      decide_ne_set_iff farm (normalize_artist_render_mode farm),
      decide_ne_set_iff fhiprt (fhiprt.getD false),
      decide_ne_set_iff fsub (max 0 (min 5 (fsub.getD 0))),
      strFalsy_fill_iff fcreated env.nowIso hnow,
      state_fill_iff fstate,
      qp_fill_iff fstate fqp env.nowMs]
  tauto

theorem uniqueFilenameAux_not_blocked (blocked : String → Bool)
    (base suffix : String) (stamp : Nat → String) :
    ∀ (fuel counter : Nat) (cand r : String),
      uniqueFilenameAux blocked base suffix stamp fuel counter cand = some r →
      blocked r = false := by
  intro fuel
  induction fuel with
  | zero => intro counter cand r h; cases h
  | succ n ih =>
      intro counter cand r h
      unfold uniqueFilenameAux at h
      by_cases hb : blocked cand
      · rw [if_neg (by simpa using hb)] at h
        exact ih _ _ r h
      · rw [if_pos (by simpa using hb)] at h
        cases h
        simpa using hb

theorem unique_filename_not_blocked (blocked : String → Bool)
    (stamp : Nat → String) (fuel : Nat) (name r : String)
    (h : unique_filename blocked stamp fuel name = some r) :
    blocked r = false :=
  uniqueFilenameAux_not_blocked blocked _ _ stamp fuel 1 name r h

theorem filterMap_if_all {α : Type} (q : α → Prop) [DecidablePred q] :
    ∀ L : List (Nat × α), (∀ p ∈ L, q p.2) →
      L.filterMap (fun p => if q p.2 then some (p.2, (p.1 : Int)) else none) =
        L.map (fun p => (p.2, (p.1 : Int))) := by
  intro L
  induction L with
  | nil => intro _; rfl
  | cons h t ih =>
      intro hall
      have hh : q h.2 := hall h (List.mem_cons_self h t)
      simp only [List.filterMap_cons, if_pos hh, List.map_cons]
      rw [ih (fun p hp => hall p (List.mem_cons_of_mem h hp))]

theorem resolveComponents_append_valid (base : List String) (s : String)
    (hbase : resolveComponents base = base)
    (hs : s ≠ "" ∧ s ≠ "." ∧ s ≠ "..") :
    resolveComponents (base ++ [s]) = base ++ [s] := by
  unfold resolveComponents at *
  rw [List.foldl_append, hbase]
  simp [resolveStep, hs.1, hs.2.1, hs.2.2]

theorem valid_id_no_slash (s : String) (h : is_valid_job_id s = true) :
    ¬ '/' ∈ s.data := by
  intro hmem
  unfold is_valid_job_id at h
  simp only [Bool.and_eq_true, List.all_eq_true, decide_eq_true_eq] at h
  have hc := h.2 '/' hmem
  exact absurd hc (by decide)

theorem splitSlashAux_no_slash (cs : List Char) (acc : List Char)
    (h : ∀ c ∈ cs, c ≠ '/') :
    splitSlashAux cs acc = [String.mk (acc.reverse ++ cs)] := by
  induction cs generalizing acc with
  | nil => simp [splitSlashAux]
  | cons c rest ih =>
      have hc : c ≠ '/' := h c (by simp)
      simp only [splitSlashAux, if_neg hc]
      rw [ih (c :: acc) (fun x hx => h x (by simp [hx]))]
      simp

theorem splitSlash_valid (s : String) (h : is_valid_job_id s = true) :
    splitSlash s = [s] := by
  unfold splitSlash
  rw [splitSlashAux_no_slash s.data [] (fun c hc heq => valid_id_no_slash s h (heq ▸ hc))]
  simp

theorem valid_id_components (s : String) (h : is_valid_job_id s = true) :
    s ≠ "" ∧ s ≠ "." ∧ s ≠ ".." := by
  refine ⟨?_, ?_, ?_⟩ <;> rintro rfl <;> revert h <;> decide

theorem as_int_lower (v : Option Jval) (d lo hi : Int) : lo ≤ as_int v d lo hi :=
  le_max_left _ _

theorem as_int_upper (v : Option Jval) (d lo hi : Int) (h : lo ≤ hi) :
    as_int v d lo hi ≤ hi :=
  max_le h (min_le_left _ _)

theorem as_float_lower (v : Option Jval) (d lo hi : Rat) : lo ≤ as_float v d lo hi :=
  le_max_left _ _

theorem as_float_upper (v : Option Jval) (d lo hi : Rat) (h : lo ≤ hi) :
    as_float v d lo hi ≤ hi :=
  max_le h (min_le_left _ _)

theorem validate_turbo_settings_inRanges (raw : Option RawTurbo) :
    turboInRanges (validate_turbo_settings raw) := by
  unfold validate_turbo_settings turboInRanges
  dsimp only
  refine ⟨as_int_lower _ _ _ _, as_int_upper _ _ _ _ (by norm_num),
    as_int_lower _ _ _ _, as_int_upper _ _ _ _ (by norm_num),
    as_int_lower _ _ _ _, as_int_upper _ _ _ _ (by norm_num),
    as_float_lower _ _ _ _, as_float_upper _ _ _ _ (by norm_num),
    as_int_lower _ _ _ _, as_int_upper _ _ _ _ (by norm_num),
    as_int_lower _ _ _ _, as_int_upper _ _ _ _ (by norm_num),
    as_int_lower _ _ _ _, as_int_upper _ _ _ _ (by norm_num),
    as_int_lower _ _ _ _, as_int_upper _ _ _ _ (by norm_num),
    as_int_lower _ _ _ _, as_int_upper _ _ _ _ (by norm_num),
    as_int_lower _ _ _ _, as_int_upper _ _ _ _ (by norm_num),
    as_float_lower _ _ _ _, as_float_upper _ _ _ _ (by norm_num),
    as_float_lower _ _ _ _, as_float_upper _ _ _ _ (by norm_num),
    as_float_lower _ _ _ _, as_float_upper _ _ _ _ (by norm_num),
    ?_⟩
  split
  · next h => exact h
  · left; rfl

/-! ## Claim C10 -/

/-- C10: for every job id string, `safe_job_dir` returns `none` whenever the
id fails `^[A-Za-z0-9_-]+$` or the joined path resolves outside the base
directory; every `some` result is a path within the base directory; and for
a valid id over a resolved base the result is exactly the id-named
subdirectory of the base. -/
theorem C10_safe_job_dir_confines (base : List String) (jobId : String)
    (hbase : resolveComponents base = base) :
    (is_valid_job_id jobId = false → safe_job_dir base jobId = none) ∧
    (ensure_within base (resolveComponents (base ++ splitSlash jobId)) = false →
      safe_job_dir base jobId = none) ∧
    (∀ p, safe_job_dir base jobId = some p → base <+: p) ∧
    (is_valid_job_id jobId = true → safe_job_dir base jobId = some (base ++ [jobId])) := by
  refine ⟨?_, ?_, ?_, ?_⟩
  · intro h
    simp [safe_job_dir, h]
  · intro h
    unfold safe_job_dir
    by_cases hv : is_valid_job_id jobId
    · simp [hv, h]
    · simp [hv]
  · intro p hp
    unfold safe_job_dir at hp
    by_cases hv : is_valid_job_id jobId
    · simp only [hv, not_true_eq_false, if_false] at hp
      by_cases hw : ensure_within base (resolveComponents (base ++ splitSlash jobId))
      · rw [if_pos hw] at hp
        cases hp
        exact List.isPrefixOf_iff_prefix.mp hw
      · simp [hw] at hp
    · simp [hv] at hp
  · intro hv
    have hcomp := valid_id_components jobId hv
    have hres : resolveComponents (base ++ splitSlash jobId) = base ++ [jobId] := by
      rw [splitSlash_valid jobId hv]
      exact resolveComponents_append_valid base jobId hbase hcomp
    have hwithin : ensure_within base (base ++ [jobId]) = true :=
      List.isPrefixOf_iff_prefix.mpr (List.prefix_append base [jobId])
    simp [safe_job_dir, hv, hres, hwithin]

/-- Witness for C10: a well-formed id maps inside the base, a traversal id
is rejected. -/
theorem C10_safe_job_dir_confines_witness :
    safe_job_dir ["srv", "failed"] "job-20240101-abc" =
      some ["srv", "failed", "job-20240101-abc"] ∧
    safe_job_dir ["srv", "failed"] "../output" = none := by
  constructor
  · exact (C10_safe_job_dir_confines ["srv", "failed"] "job-20240101-abc"
      (by decide)).2.2.2 (by decide)
  · exact (C10_safe_job_dir_confines ["srv", "failed"] "../output"
      (by decide)).1 (by decide)

/-! ## Claim C7 -/

/-- C7: the progress parser maps `"Sample 512/4096"` to
`sample_current=512, sample_total=4096, progress=12`; `"Fra: 3"` to
`frame=3`; `"[TILES] 10/40"` to `tile_current=10, tile_total=40`; and a
line on which none of the patterns matches to an update with no fields. -/
theorem C7_progress_examples :
    ((parse_blender_output "Sample 512/4096").sample_current = some 512 ∧
     (parse_blender_output "Sample 512/4096").sample_total = some 4096 ∧
     (parse_blender_output "Sample 512/4096").progress = some 12) ∧
    (parse_blender_output "Fra: 3").frame = some 3 ∧
    ((parse_blender_output "[TILES] 10/40").tile_current = some 10 ∧
     (parse_blender_output "[TILES] 10/40").tile_total = some 40) ∧
    (∀ line : String,
      searchFra line.data = none → searchSample line.data = none →
      searchTiles line.data = none → searchRemainingPat line.data = none →
      parse_blender_output line = {}) := by
  refine ⟨⟨by decide, by decide, by decide⟩, by decide, ⟨by decide, by decide⟩, ?_⟩
  intro line h1 h2 h3 h4
  unfold parse_blender_output
  simp only [h1, h2, h3, h4]

/-- Witness for C7: the unrelated line `"hello world"` matches no pattern
and yields the empty update. -/
theorem C7_progress_examples_witness :
    parse_blender_output "hello world" = {} :=
  C7_progress_examples.2.2.2 "hello world" (by decide) (by decide) (by decide) (by decide)

/-! ## Claim C1 -/

/-- C1: when a job finalises FAILED, its mode normalises to TURBO, the
acceleration flag was recorded as used, and the record is neither an
automatic retry nor marked `auto_retry_done`, the worker creates exactly
one successor: same `root_id`, `attempt + 1`, an override disabling
`use_hiprt` (so the resolved settings have `use_hiprt = false` under every
configuration), state QUEUED with a fresh priority stamp.  The failed
record is marked so its guard can never fire again, and the successor
carries `auto_retry_of`, so a later failure of the successor fires no
further automatic retry. -/
theorem C1_auto_retry_once (meta : JobMeta) (state newId i r nowIso : String)
    (uniq : String → String) (nowMs a : Int)
    (hstate : state = "FAILED")
    (hmode : normalize_mode meta.mode = "TURBO")
    (hhiprt : meta.hiprt_used = some true)
    (hof : meta.auto_retry_of = none)
    (hdone : meta.auto_retry_done.getD false = false)
    (hid : meta.id = some i) (hi : i ≠ "")
    (hroot : meta.root_id = some r) (hr : r ≠ "")
    (hatt : meta.attempt = some a) (ha : a ≠ 0) :
    (workerAutoRetryMark meta state newId).2 = some newId ∧
    (workerAutoRetryMark meta state newId).1.auto_retry_done = some true ∧
    autoRetryGuard "FAILED" (workerAutoRetryMark meta state newId).1 = false ∧
    (enqueue_auto_retry (workerAutoRetryMark meta state newId).1 newId uniq nowIso
        nowMs).root_id = some r ∧
    (enqueue_auto_retry (workerAutoRetryMark meta state newId).1 newId uniq nowIso
        nowMs).attempt = some (a + 1) ∧
    (enqueue_auto_retry (workerAutoRetryMark meta state newId).1 newId uniq nowIso
        nowMs).state = some "QUEUED" ∧
    (enqueue_auto_retry (workerAutoRetryMark meta state newId).1 newId uniq nowIso
        nowMs).queue_priority = some nowMs ∧
    (enqueue_auto_retry (workerAutoRetryMark meta state newId).1 newId uniq nowIso
        nowMs).turbo_settings_override = some hiprtOffOverride ∧
    (∀ cfg, (build_turbo_settings_for_job cfg
        (enqueue_auto_retry (workerAutoRetryMark meta state newId).1 newId uniq nowIso
          nowMs).turbo_settings_override).use_hiprt = false) ∧
    autoRetryGuard "FAILED"
      (enqueue_auto_retry (workerAutoRetryMark meta state newId).1 newId uniq nowIso
        nowMs) = false := by
  subst hstate
  have hguard : autoRetryGuard "FAILED" meta = true := by
    simp [autoRetryGuard, hmode, hhiprt, hof, hdone, strFalsy]
  have hmark :
      workerAutoRetryMark meta "FAILED" newId =
        ({ meta with auto_retry_done := some true, auto_retry_job_id := some newId },
          some newId) := by
    simp [workerAutoRetryMark, hguard]
  rw [hmark]
  refine ⟨rfl, rfl, ?_, ?_, ?_, rfl, rfl, rfl, ?_, ?_⟩
  · simp [autoRetryGuard]
  · simp [enqueue_auto_retry, hroot, pyOr, hr]
  · simp [enqueue_auto_retry, hatt, pyOrInt, ha]
  · intro cfg
    rfl
  · simp [autoRetryGuard, enqueue_auto_retry, strFalsy, hid, hi]

/-- Witness for C1 at a concrete failed TURBO record. -/
theorem C1_auto_retry_once_witness :
    (workerAutoRetryMark
        { id := some "job-1", root_id := some "job-1", attempt := some 1,
          mode := some "TURBO", hiprt_used := some true,
          stored_filename := some "scene.blend" }
        "FAILED" "job-2").2 = some "job-2" ∧
    (enqueue_auto_retry
        (workerAutoRetryMark
          { id := some "job-1", root_id := some "job-1", attempt := some 1,
            mode := some "TURBO", hiprt_used := some true,
            stored_filename := some "scene.blend" }
          "FAILED" "job-2").1
        "job-2" (fun n => n) "2024-01-01T00:00:00+00:00" 100).attempt = some 2 := by
  have h := C1_auto_retry_once
    { id := some "job-1", root_id := some "job-1", attempt := some 1,
      mode := some "TURBO", hiprt_used := some true,
      stored_filename := some "scene.blend" }
    "FAILED" "job-2" "job-1" "job-1" "2024-01-01T00:00:00+00:00" (fun n => n) 100 1
    rfl (by decide) rfl rfl rfl rfl (by decide) rfl (by decide) rfl (by decide)
  exact ⟨h.1, h.2.2.2.2.1⟩

/-! ## Claim C2 -/

/-- C2 counterexample: a cancel request for a RENDERING job returns
success having only sent SIGTERM — the child process is still alive when
the call returns, so "the child process is confirmed stopped before the
cancel call returns" is false. -/
theorem C2_cancel_counterexample :
    (cancel { status := "RENDERING", stopEvent := false,
              activeProc := some { alive := true } }).2 = true ∧
    (cancel { status := "RENDERING", stopEvent := false,
              activeProc := some { alive := true } }).1.activeProc =
      some { alive := true, termSignaled := true } := by
  decide

/-- C2 (amended): whenever the stop flag is set at finalisation the job is
finalised CANCELED regardless of exit code; a cancel request for a
RENDERING job sets the stop flag and signals (but does not wait for) a
live child; the worker's in-loop cancellation path is what confirms the
child stopped (graceful wait, then kill) before finalising. -/
theorem C2_cancel_semantics :
    (∀ rc : Int, (worker_final_state true rc).1 = "CANCELED") ∧
    (∀ s : CancelCtx, s.status = "RENDERING" →
      (cancel s).2 = true ∧ (cancel s).1.stopEvent = true ∧
      (∀ p, s.activeProc = some p → p.alive = true →
        (cancel s).1.activeProc = some (procTerminate p))) ∧
    (∀ p exitsInGrace, (worker_stop_child p exitsInGrace).alive = false) := by
  refine ⟨?_, ?_, ?_⟩
  · intro rc
    simp [worker_final_state]
  · intro s hs
    unfold cancel
    rw [if_pos hs]
    refine ⟨?_, ?_, ?_⟩
    · cases hp : s.activeProc with
      | none => rfl
      | some p => by_cases hal : p.alive <;> simp [hp, hal]
    · cases hp : s.activeProc with
      | none => rfl
      | some p => by_cases hal : p.alive <;> simp [hp, hal]
    · intro p hp hal
      simp [hp, hal]
  · intro p exitsInGrace
    cases exitsInGrace <;> simp [worker_stop_child]

/-- Witness for C2 at a concrete RENDERING snapshot with a live child. -/
theorem C2_cancel_semantics_witness :
    (worker_final_state true 0).1 = "CANCELED" ∧
    (cancel { status := "RENDERING", stopEvent := false,
              activeProc := some { alive := true } }).1.stopEvent = true ∧
    (cancel { status := "RENDERING", stopEvent := false,
              activeProc := some { alive := true } }).1.activeProc =
      some (procTerminate { alive := true }) :=
  ⟨C2_cancel_semantics.1 0,
   (C2_cancel_semantics.2.1 _ rfl).2.1,
   (C2_cancel_semantics.2.1 _ rfl).2.2 _ rfl rfl⟩

/-! ## Claim C3 -/

/-- C3 counterexample: two distinct QUEUED records with identical
`queue_priority` and `queued_at` both appear in the output with equal sort
keys in both directions — so the claimed "deterministic and total (no ties
remain)" ordering by (priority, timestamp) does not hold: the key does not
separate them, and their relative order comes from the enumeration order,
not from the key. -/
theorem C3_tie_counterexample :
    get_render_queue [qTieA, qTieB] = [qTieA, qTieB] ∧
    qTieA ≠ qTieB ∧
    queueKeyLE qTieA qTieB = true ∧ queueKeyLE qTieB qTieA = true := by
  refine ⟨by decide, by decide, by decide, by decide⟩

/-- C3 (amended): for every directory state, `get_render_queue` returns
exactly the records whose state is QUEUED (a permutation of the filter),
with no duplicates whenever the inbox records are distinct, sorted by
`queue_priority` ascending with missing priorities last and ties broken by
the `queued_at`-falling-back-to-`created_at` timestamp; records with equal
keys may both remain (the stable sort keeps their enumeration order). -/
theorem C3_render_queue_order (items : List QueueItem) :
    List.Perm (get_render_queue items) (items.filter (fun it => it.state == "QUEUED")) ∧
    (items.Nodup → (get_render_queue items).Nodup) ∧
    List.Sorted queueLE (get_render_queue items) ∧
    (∀ it ∈ get_render_queue items, it.state = "QUEUED") := by
  refine ⟨List.perm_insertionSort _ _, ?_, List.sorted_insertionSort _ _, ?_⟩
  · intro h
    exact ((List.perm_insertionSort queueLE _).nodup_iff).mpr (h.filter _)
  · intro it hit
    have hmem : it ∈ items.filter (fun it => it.state == "QUEUED") :=
      (List.perm_insertionSort queueLE _).subset hit
    have := (List.mem_filter.mp hmem).2
    exact eq_of_beq this

/-- Witness for C3 on a one-element QUEUED directory. -/
theorem C3_render_queue_order_witness :
    List.Perm (get_render_queue [qTieA]) [qTieA] ∧ (get_render_queue [qTieA]).Nodup := by
  constructor
  · have h := (C3_render_queue_order [qTieA]).1
    have hf : [qTieA].filter (fun it => it.state == "QUEUED") = [qTieA] := by decide
    rwa [hf] at h
  · exact (C3_render_queue_order [qTieA]).2.1 (by decide)

/-! ## Claim C4 -/

/-- C4 counterexample: bulk "queue all" does not renumber from 0.  With one
QUEUED record at priority 5 and one PENDING record, `start_all_jobs`
assigns the new record priority 6, so the resulting QUEUED priorities
`[5, 6]` are not the contiguous `[0, 1]` the claim requires. -/
theorem C4_start_all_counterexample :
    start_all_jobs [some 5] 1 = [6] ∧
    ¬ List.Perm ((5 : Int) :: start_all_jobs [some 5] 1) ((List.range 2).map Int.ofNat) := by
  constructor
  · decide
  · intro h
    have h5 : (5 : Int) ∈ (List.range 2).map Int.ofNat :=
      h.subset (List.mem_cons_self _ _)
    revert h5
    decide

/-- C4 (amended): single-move operations (`move_queue_job`, directions
up/down/top) renumber the QUEUED records contiguously from 0 (no gaps, no
duplicates), and the spec's example holds: moving C to the top of
`[A(0), B(1), C(2)]` yields `C=0, A=1, B=2`.  The explicit full reorder
assigns indices `0..n-1` across all inbox records it numbers.  Bulk
"queue all" does not renumber: it appends strictly increasing priorities
continuing past the maximum existing queued priority (hence no duplicates,
but not contiguous from 0). -/
theorem C4_reorder_renumbering :
    (∀ (entries : List QueueItem) (jobId direction : String)
        (out : List (QueueItem × Int)),
      move_queue_job entries jobId direction = some out →
      out.map Prod.snd = (List.range out.length).map Int.ofNat) ∧
    move_queue_job [qExA, qExB, qExC] "C" "top" =
      some [(qExC, 0), (qExA, 1), (qExB, 2)] ∧
    (∀ ids order,
      (reorder_queue ids order).map Prod.snd =
        (List.range (reorder_queue ids order).length).map Int.ofNat) ∧
    (∀ (qs : List (Option Int)) (k : Nat),
      (∀ n : Int, some n ∈ qs → ∀ p ∈ start_all_jobs qs k, n < p) ∧
      List.Pairwise (· < ·) (start_all_jobs qs k)) := by
  refine ⟨?_, by decide, ?_, ?_⟩
  · intro entries jobId direction out h
    unfold move_queue_job at h
    split at h
    · cases h
    · dsimp only at h
      cases hidx : (List.insertionSort queueLE entries).map (fun e => e.id)
          |>.indexOf? jobId with
      | none => rw [hidx] at h; cases h
      | some idx =>
          rw [hidx] at h
          have h' := Option.some.inj h
          subst h'
          simp only [List.length_map, List.enum_length]
          exact enum_index_priorities _
  · intro ids order
    unfold reorder_queue
    dsimp only
    have hsub : ∀ x ∈ (order.foldl
        (fun acc jid => if jid ∈ ids ∧ jid ∉ acc then acc ++ [jid] else acc) []) ++
        ids.filter (fun i => decide (i ∉ (order.foldl
          (fun acc jid => if jid ∈ ids ∧ jid ∉ acc then acc ++ [jid] else acc) []))),
        x ∈ ids := by
      intro x hx
      rcases List.mem_append.mp hx with hx | hx
      · exact reorder_fold_subset ids order [] (by intro y hy; cases hy) x hx
      · exact (List.mem_filter.mp hx).1
    rw [filterMap_if_all (fun s => s ∈ ids) _ ?hall]
    case hall =>
      intro p hp
      refine hsub p.2 ?_
      obtain ⟨i, x⟩ := p
      rw [List.enum_eq_zip_range] at hp
      exact (List.of_mem_zip hp).2
    simp only [List.length_map, List.enum_length]
    exact enum_index_priorities _
  · intro qs k
    constructor
    · intro n hn p hp
      unfold start_all_jobs at hp
      rw [List.mem_map] at hp
      obtain ⟨i, _, rfl⟩ := hp
      have hle : n ≤ pyMaxOr0 (qs.map (fun o => pyOrInt o 0)) := by
        apply le_pyMaxOr0
        exact List.mem_map.mpr ⟨some n, hn, pyOrInt_some_zero n⟩
      have hnn : (0 : Int) ≤ Int.ofNat i := Int.natCast_nonneg i
      linarith
    · unfold start_all_jobs
      rw [List.pairwise_map]
      refine (List.pairwise_lt_range k).imp ?_
      intro a b hab
      have hlt : Int.ofNat a < Int.ofNat b := Int.ofNat_lt.mpr hab
      linarith

/-- Witness for C4: the move-to-top renumbering on the concrete queue,
through the amended theorem. -/
theorem C4_reorder_renumbering_witness :
    ([(qExC, (0 : Int)), (qExA, 1), (qExB, 2)]).map Prod.snd =
      (List.range ([(qExC, (0 : Int)), (qExA, 1), (qExB, 2)]).length).map Int.ofNat :=
  C4_reorder_renumbering.1 [qExA, qExB, qExC] "C" "top" _ (by decide)

/-! ## Claim C8 -/

/-- C8: reconciling a record read from disk fills every missing `id`,
`root_id`, `attempt`, `note` and `created_at` with its default, coerces
`mode` and `artist_render_mode` into their enums, forces any state whose
canonical (uppercased) form is outside {PENDING, QUEUED} to PENDING (and
canonicalises one inside the set), assigns a `queue_priority` stamp
exactly when the canonical state is QUEUED and no priority is present, and
writes the repaired record back if and only if some field changed or the
sidecar file did not exist. -/
theorem C8_reconcile_spec (env : EnsureEnv) (blendName : String) (jsonExists : Bool)
    (m : JobMeta) (hfresh : env.freshId ≠ "") (hnow : env.nowIso ≠ "")
    (hblend : blendName ≠ "") :
    (m.id = none → (ensureRepair env blendName m).id = some env.freshId) ∧
    (m.root_id = none → ((ensureRepair env blendName m).root_id).isSome = true) ∧
    (m.attempt = none → (ensureRepair env blendName m).attempt = some 1) ∧
    (m.note = none → (ensureRepair env blendName m).note = some "") ∧
    (m.created_at = none → (ensureRepair env blendName m).created_at = some env.nowIso) ∧
    ((ensureRepair env blendName m).mode = some "TURBO" ∨
      (ensureRepair env blendName m).mode = some "ARTIST") ∧
    ((ensureRepair env blendName m).artist_render_mode = some "NORMAL" ∨
      (ensureRepair env blendName m).artist_render_mode = some "COMPOSITOR") ∧
    (curStateValidOf m.state = false →
      (ensureRepair env blendName m).state = some "PENDING") ∧
    (curStateValidOf m.state = true →
      (ensureRepair env blendName m).state = some (curStateOf m.state)) ∧
    ((ensureRepair env blendName m).queue_priority =
      if qpFiresOf m.state m.queue_priority then some env.nowMs else m.queue_priority) ∧
    ((ensure_queue_sidecar env blendName jsonExists m).2.2 = true ↔
      (ensureRepair env blendName m ≠ m ∨ jsonExists = false)) := by
  refine ⟨?_, ?_, ?_, ?_, ?_, ?_, ?_, ?_, ?_, ?_, ?_⟩
  · intro h
    simp [ensureRepair, h, strFalsy]
  · intro h
    simp [ensureRepair, h, strFalsy]
  · intro h
    simp [ensureRepair, h, intFalsy]
  · intro h
    simp [ensureRepair, h]
  · intro h
    simp [ensureRepair, h, strFalsy]
  · rcases normalize_mode_cases (some (pyOr m.mode (inferredMode blendName))) with h | h
    · left; simp [ensureRepair, h]
    · right; simp [ensureRepair, h]
  · rcases normalize_artist_render_mode_cases m.artist_render_mode with h | h
    · left; simp [ensureRepair, h]
    · right; simp [ensureRepair, h]
  · intro h
    simp [ensureRepair, h]
  · intro h
    simp [ensureRepair, h]
  · rfl
  · have h1 := ensureChanged_iff env blendName m hfresh hnow hblend
    unfold ensure_queue_sidecar
    dsimp only
    constructor
    · intro h
      by_cases hc : ensureChanged blendName m = true
      · left
        intro heq
        have hf := h1.mpr heq
        rw [hc] at hf
        cases hf
      · right
        have hc' : ensureChanged blendName m = false := by simpa using hc
        rw [hc'] at h
        simpa using h
    · intro h
      rcases h with h | h
      · have hc : ensureChanged blendName m = true := by
          by_contra hcn
          have hc' : ensureChanged blendName m = false := by simpa using hcn
          exact h (h1.mp hc')
        simp [hc]
      · simp [h]

/-- Witness for C8 on an absent sidecar (`{}` metadata, written back). -/
theorem C8_reconcile_spec_witness :
    (ensureRepair
        { freshId := "job-7", freshId2 := "job-8",
          nowIso := "2024-01-01T00:00:00+00:00", nowMs := 1700000000000 }
        "scene.blend" {}).id = some "job-7" ∧
    (ensureRepair
        { freshId := "job-7", freshId2 := "job-8",
          nowIso := "2024-01-01T00:00:00+00:00", nowMs := 1700000000000 }
        "scene.blend" {}).state = some "PENDING" := by
  have h := C8_reconcile_spec
    { freshId := "job-7", freshId2 := "job-8",
      nowIso := "2024-01-01T00:00:00+00:00", nowMs := 1700000000000 }
    "scene.blend" false {} (by decide) (by decide) (by decide)
  exact ⟨h.1 rfl, h.2.2.2.2.2.2.2.1 (by decide)⟩

/-! ## Claim C6 -/

/-- C6 counterexample: in the restore branch the processing directory is
not empty when it is removed — `shutil.rmtree` deletes it while it still
holds the original `job.json` (only `job.blend` was moved out), so "the
now-empty processing directory is removed" is false. -/
theorem C6_dir_not_empty_counterexample :
    recoveryDirContents
      (recover_processing_entry procEntry0 (fun _ => false) "abcdef" "job-x"
        "2024-01-02T00:00:00+00:00" (fun _ => false) (fun _ => "20240102-000000") 3) =
      some ["job.json"] ∧
    (["job.json"] : List String) ≠ [] := by
  exact ⟨by decide, by decide⟩

/-- C6 (amended): for every leftover processing directory: if `job.blend`
or `job.json` is missing, the whole directory is moved (never deleted)
into the FAILED archive under the synthesized name `recovery-broken-<dir>`
with a random suffix on collision; otherwise the artifact goes back to the
inbox under a collision-free name (`blocked` returns false for it), the
record's state is set to QUEUED, its attempt becomes the old
truthy-attempt plus one, a recovery timestamp is stamped, `root_id`
defaults to the record's own id when absent, and the processing directory
is deleted together with its remaining contents (everything but
`job.blend`) — it is not empty at removal whenever the sidecar is still
inside. -/
theorem C6_recovery_scanner (e : ProcEntry) (failedDirHas : String → Bool)
    (uuidHex freshId nowIso : String) (blocked : String → Bool)
    (stamp : Nat → String) (fuel : Nat) :
    (¬ (e.files.contains "job.blend" ∧ e.files.contains "job.json") →
      recover_processing_entry e failedDirHas uuidHex freshId nowIso blocked stamp fuel =
        some (.quarantine (if failedDirHas ("recovery-broken-" ++ e.name)
          then "recovery-broken-" ++ e.name ++ "-" ++ uuidHex
          else "recovery-broken-" ++ e.name))) ∧
    (∀ r m contents,
      recover_processing_entry e failedDirHas uuidHex freshId nowIso blocked stamp fuel =
        some (.restore r m contents) →
      blocked r = false ∧
      m.stored_filename = some r ∧
      m.state = some "QUEUED" ∧
      m.recovered_at = some nowIso ∧
      m.attempt = some (pyOrInt e.meta.attempt 1 + 1) ∧
      m.id = some (pyOr e.meta.id freshId) ∧
      (strFalsy e.meta.root_id = true → m.root_id = m.id) ∧
      contents = e.files.erase "job.blend") := by
  constructor
  · intro h
    unfold recover_processing_entry
    rw [if_pos h]
  · intro r m contents h
    unfold recover_processing_entry at h
    by_cases hfiles : e.files.contains "job.blend" ∧ e.files.contains "job.json"
    · rw [if_neg (by simpa using hfiles)] at h
      dsimp only at h
      cases huf : unique_filename blocked stamp fuel
          (if endsWithBlend (pyOr e.meta.stored_filename
              (pyOr e.meta.original_filename (e.name ++ ".blend")))
           then pyOr e.meta.stored_filename
              (pyOr e.meta.original_filename (e.name ++ ".blend"))
           else pyOr e.meta.stored_filename
              (pyOr e.meta.original_filename (e.name ++ ".blend")) ++ ".blend") with
      | none => rw [huf] at h; cases h
      | some restored =>
          rw [huf] at h
          have h' := Option.some.inj h
          injection h' with h1 h2 h3
          subst h1
          subst h2
          subst h3
          refine ⟨unique_filename_not_blocked _ _ _ _ _ huf, rfl, rfl, rfl, rfl, rfl, ?_, rfl⟩
          intro hroot
          simp [hroot]
    · rw [if_pos hfiles] at h
      cases h

/-- Witness for C6: a directory missing both files is quarantined under
the synthesized name. -/
theorem C6_recovery_scanner_witness :
    recover_processing_entry { name := "job-9", files := [] } (fun _ => false)
        "abcdef" "job-x" "now" (fun _ => false) (fun _ => "s") 1 =
      some (.quarantine "recovery-broken-job-9") := by
  have h := (C6_recovery_scanner { name := "job-9", files := [] } (fun _ => false)
    "abcdef" "job-x" "now" (fun _ => false) (fun _ => "s") 1).1 (by decide)
  simpa using h

/-! ## Claim C5 -/

/-- C5 counterexample: a supervisor fault finalises the job FAILED with
return code `-1`, but the persisted reason is the generic classification
text `"Render fehlgeschlagen (rc=-1)"` — the fault text (here `"boom"`,
set at `worker.py` line 262) is overwritten at line 281 and does not
appear in the reason. -/
theorem C5_fault_reason_counterexample :
    (worker_step { moveOk := true, outcome := .fault "boom", stopSet := false,
                   finalizeOk := true }).finalized =
      some { state := "FAILED", returncode := -1,
             reason := "Render fehlgeschlagen (rc=-1)" } ∧
    listContainsSub "boom".data "Render fehlgeschlagen (rc=-1)".data = false := by
  exact ⟨rfl, by decide⟩

/-- C5 (amended): a supervisor-level fault with no cancellation requested
finalises the job FAILED with return code `-1` and the classification
reason `"Render fehlgeschlagen (rc=-1)"` (the fault text itself goes only
to the log); and no input — move failure, fault, finalisation failure —
stops the worker loop: every iteration proceeds to the next poll. -/
theorem C5_fault_finalizes_failed :
    (∀ inp : StepInput, (worker_step inp).continues = true) ∧
    (∀ msg fin,
      worker_step { moveOk := true, outcome := .fault msg, stopSet := false,
                    finalizeOk := fin } =
        { continues := true,
          finalized := some { state := "FAILED", returncode := -1,
                              reason := "Render fehlgeschlagen (rc=-1)" },
          archived := fin }) := by
  constructor
  · intro inp
    by_cases h : inp.moveOk <;> simp [worker_step, h]
  · intro msg fin
    rfl

/-! ## Claim C9 -/

/-- C9: for every configured profile and every job-specific override map
(arbitrary, possibly malformed JSON values), the settings resolved by
`build_turbo_settings_for_job` lie within the validated ranges; the
boolean fields are `Bool`-typed by construction.  An override can never
push a setting outside its range because the merged dictionary passes
through `validate_turbo_settings` again. -/
theorem C9_turbo_override_bounded (cfg override : Option RawTurbo) :
    turboInRanges (build_turbo_settings_for_job cfg override) := by
  unfold build_turbo_settings_for_job
  exact validate_turbo_settings_inRanges _

end RF
